import Mathlib

/-!
Shallow embedding of `src/data/main-dns.go` (package `data` of the
`letsencrypt` repository): a certbot-like ACME client that issues a
certificate for a comma-separated list of domains using the DNS-01
challenge.  External collaborators (the `letsencrypt/acme` transport
client, the DNS TXT query mechanism, the filesystem and the entropy
source) are modelled as explicit environment records; the orchestration
logic of `main`, `loadAccount`, `createAccount` and `getContacts` is
translated function by function.
-/

namespace LetsEncrypt

/-! ## Elliptic-curve data (Go `crypto/elliptic.CurveParams`, `crypto/ecdsa.PrivateKey`) -/

/-- Go `crypto/elliptic.CurveParams`: the exported fields that `encoding/json`
marshals and that the `tmpCurve` schema of `main-dns.go` mirrors. -/
structure CurveParams where
  P : Int
  N : Int
  B : Int
  Gx : Int
  Gy : Int
  BitSize : Int
  Name : String
deriving DecidableEq

/-- The NIST P-256 parameters, the value of Go `elliptic.P256().Params()`. -/
def p256Params : CurveParams :=
  ⟨0xffffffff00000001000000000000000000000000ffffffffffffffffffffffff,
   0xffffffff00000000ffffffffffffffffbce6faada7179e84f3b9cac2fc632551,
   0x5ac635d8aa3a93e7b3ebbd55769886bc651d06b0cc53b0f63bce3c3e27d2604b,
   0x6b17d1f2e12c4247f8bce6e563a440f277037d812deb33a0f4a13945d898c296,
   0x4fe342e2fe1a7f9b8ee7eb4a7c0f9e162bce33576b315ececbb6406837bf51f5,
   256, "P-256"⟩

/-- Go `ecdsa.PrivateKey` as produced by `ecdsa.GenerateKey`: curve, public
point `(X, Y)` and private scalar `D`, all non-nil. -/
structure ECPrivateKey where
  Curve : CurveParams
  X : Int
  Y : Int
  D : Int
deriving DecidableEq

/-- Go `ecdsa.PrivateKey` as reconstructed by `loadAccount` from JSON: the
`*big.Int` fields `D`, `X`, `Y` come from decoded pointers and may be nil
(`none`). -/
structure LoadedPrivateKey where
  Curve : CurveParams
  X : Option Int
  Y : Option Int
  D : Option Int
deriving DecidableEq

/-- `acme.Account`: the registrant's URL and key pair. -/
structure Account where
  URL : String
  PrivateKey : LoadedPrivateKey
deriving DecidableEq

/-! ## JSON (Go `encoding/json`) and the account-file schema -/

/-- The fragment of JSON used by the account file: numbers (`*big.Int`
marshals to an exact decimal number), strings, and objects. -/
inductive Json where
  | num (n : Int)
  | str (s : String)
  | obj (fields : List (String × Json))

/-- Field lookup in a decoded JSON object.  The account file never holds a
duplicate key, so first-match lookup coincides with Go's last-wins rule. -/
def jsonLookup : List (String × Json) → String → Option Json
  | [], _ => none
  | (k, v) :: rest, key => if k = key then some v else jsonLookup rest key

/-- Decode a `string` struct field: an absent key leaves Go's zero value `""`;
a present non-string value is an unmarshal error (`none`). -/
def decodeStringField (fields : List (String × Json)) (key : String) : Option String :=
  match jsonLookup fields key with
  | none => some ""
  | some (Json.str s) => some s
  | some _ => none

/-- Decode a `*big.Int` struct field: an absent key leaves a nil pointer
(`some none`); a present non-number value is an unmarshal error. -/
def decodeBigIntField (fields : List (String × Json)) (key : String) : Option (Option Int) :=
  match jsonLookup fields key with
  | none => some none
  | some (Json.num n) => some (some n)
  | some _ => none

/-- Decode an `int` struct field: an absent key leaves Go's zero value `0`. -/
def decodeIntField (fields : List (String × Json)) (key : String) : Option Int :=
  match jsonLookup fields key with
  | none => some 0
  | some (Json.num n) => some n
  | some _ => none

/-- `tmpCurve` of `main-dns.go`: `P, N, B, Gx, Gy *big.Int; BitSize int;
Name string`. -/
structure TmpCurve where
  P : Option Int
  N : Option Int
  B : Option Int
  Gx : Option Int
  Gy : Option Int
  BitSize : Int
  Name : String
deriving DecidableEq

/-- `tmpPrivateKey` of `main-dns.go`: `D, X, Y *big.Int; Curve *tmpCurve`. -/
structure TmpPrivateKey where
  D : Option Int
  X : Option Int
  Y : Option Int
  Curve : Option TmpCurve
deriving DecidableEq

/-- `tmpAccountFile` of `main-dns.go`: `Url string` (tag `url`) and
`PrivateKey tmpPrivateKey` (tag `privateKey`). -/
structure TmpAccountFile where
  Url : String
  PrivateKey : TmpPrivateKey
deriving DecidableEq

/-- `json.Unmarshal` into `tmpCurve`. -/
def decodeTmpCurve : Json → Option TmpCurve
  | Json.obj fields => do
    let p ← decodeBigIntField fields "P"
    let n ← decodeBigIntField fields "N"
    let b ← decodeBigIntField fields "B"
    let gx ← decodeBigIntField fields "Gx"
    let gy ← decodeBigIntField fields "Gy"
    let bs ← decodeIntField fields "BitSize"
    let nm ← decodeStringField fields "Name"
    pure ⟨p, n, b, gx, gy, bs, nm⟩
  | _ => none

/-- `json.Unmarshal` into `tmpPrivateKey`; an absent `Curve` key leaves the
nil pointer. -/
def decodeTmpPrivateKey : Json → Option TmpPrivateKey
  | Json.obj fields => do
    let d ← decodeBigIntField fields "D"
    let x ← decodeBigIntField fields "X"
    let y ← decodeBigIntField fields "Y"
    let c ← (match jsonLookup fields "Curve" with
             | none => some none
             | some cj => (decodeTmpCurve cj).map some)
    pure ⟨d, x, y, c⟩
  | _ => none

/-- `json.Unmarshal` of the raw account file into `tmpAccountFile`
(`main-dns.go` lines 240-243). -/
def unmarshalTmpAccountFile : Json → Option TmpAccountFile
  | Json.obj fields => do
    let url ← decodeStringField fields "url"
    let pk ← (match jsonLookup fields "privateKey" with
              | none => some (⟨none, none, none, none⟩ : TmpPrivateKey)
              | some pj => decodeTmpPrivateKey pj)
    pure ⟨url, pk⟩
  | _ => none

/-- `json.Marshal` of Go `elliptic.CurveParams` (the dynamic value behind the
`elliptic.Curve` interface field of the marshalled key). -/
def marshalCurveParams (c : CurveParams) : Json :=
  Json.obj [("P", Json.num c.P), ("N", Json.num c.N), ("B", Json.num c.B),
            ("Gx", Json.num c.Gx), ("Gy", Json.num c.Gy),
            ("BitSize", Json.num c.BitSize), ("Name", Json.str c.Name)]

/-- `json.Marshal(acmeAccountFile{PrivateKey: privKey, Url: url})`
(`main-dns.go` line 276): the `url` tag, then the key with its embedded
public part (`Curve`, `X`, `Y`) and the scalar `D`. -/
def marshalAccountFile (k : ECPrivateKey) (url : String) : Json :=
  Json.obj [("url", Json.str url),
            ("privateKey",
              Json.obj [("Curve", marshalCurveParams k.Curve),
                        ("X", Json.num k.X), ("Y", Json.num k.Y),
                        ("D", Json.num k.D)])]

/-- Key reconstruction of `loadAccount` (`main-dns.go` lines 245-249):
`apkey.D/X/Y` are copied from the decoded file and `apkey.Curve` is set to
`elliptic.P256()`, whatever the file stored. -/
def keyFromAccountFile (taf : TmpAccountFile) : LoadedPrivateKey :=
  ⟨p256Params, taf.PrivateKey.X, taf.PrivateKey.Y, taf.PrivateKey.D⟩

/-! ## Account bootstrap (`loadAccount`, `createAccount`, `main` lines 82-93) -/

/-- Environment of `loadAccount`: the outcomes of `os.Stat`,
`ioutil.ReadFile` (with `Except.ok none` standing for bytes that
`json.Unmarshal` rejects syntactically) and `client.UpdateAccount`. -/
structure LoadEnv where
  statError : Option String
  readFileResult : Except String (Option Json)
  updateAccountResult : Account → Except String Account

/-- `loadAccount` (`main-dns.go` lines 229-265): stat, read, unmarshal,
rebuild the key (forcing P-256), then re-synchronize the account with the
authority via `UpdateAccount`. -/
def loadAccount (env : LoadEnv) : Except String Account :=
  match env.statError with
  | some e => Except.error e
  | none =>
    match env.readFileResult with
    | Except.error e => Except.error e
    | Except.ok none => Except.error "error reading account file"
    | Except.ok (some raw) =>
      match unmarshalTmpAccountFile raw with
      | none => Except.error "error reading account file"
      | some taf =>
        match env.updateAccountResult ⟨taf.Url, keyFromAccountFile taf⟩ with
        | Except.error e => Except.error ("error updating existing account: " ++ e)
        | Except.ok account => Except.ok account

/-- Steps of `createAccount` that touch the outside world, in program
order. -/
inductive CreateEvent where
  | generateKey
  | newAccountCall
  | writeAccountFile
deriving DecidableEq

/-- Environment of `createAccount`: the outcomes of `ecdsa.GenerateKey`,
`client.NewAccount` and `ioutil.WriteFile` (a `some` is the write error). -/
structure CreateEnv where
  generateKeyResult : Except String ECPrivateKey
  newAccountResult : ECPrivateKey → Except String Account
  writeFileError : Json → Option String

/-- `createAccount` (`main-dns.go` lines 267-284) together with the trace of
externally visible steps it performed: generate a key, register it with the
authority, and only then marshal and write the account file.
(`json.Marshal` of `acmeAccountFile` cannot fail, so the marshal error
branch of line 277 is unreachable and not an event.) -/
def createAccount (env : CreateEnv) : Except String Account × List CreateEvent :=
  match env.generateKeyResult with
  | Except.error e =>
    (Except.error ("error creating private key: " ++ e), [CreateEvent.generateKey])
  | Except.ok privKey =>
    match env.newAccountResult privKey with
    | Except.error e =>
      (Except.error ("error creating new account: " ++ e),
       [CreateEvent.generateKey, CreateEvent.newAccountCall])
    | Except.ok account =>
      match env.writeFileError (marshalAccountFile privKey account.URL) with
      | some e =>
        (Except.error ("error creating account file: " ++ e),
         [CreateEvent.generateKey, CreateEvent.newAccountCall, CreateEvent.writeAccountFile])
      | none =>
        (Except.ok account,
         [CreateEvent.generateKey, CreateEvent.newAccountCall, CreateEvent.writeAccountFile])

/-- Account bootstrap of `main` (lines 82-93): try `loadAccount`; on any
error fall through to `createAccount`; `log.Fatalf` only if that too
errors. -/
def accountBootstrap (loadResult : Except String Account)
    (createResult : Except String Account) : Except String Account :=
  match loadResult with
  | Except.ok account => Except.ok account
  | Except.error _ => createResult

/-- `getContacts` (`main-dns.go` lines 286-295): split the comma-separated
contact list and prefix every entry with `mailto:`. -/
def getContacts (contactsList : String) : List String :=
  if contactsList = "" then []
  else (contactsList.split (fun c => c = ',')).map (fun c => "mailto:" ++ c)

/-- `strings.Split(domains, ",")` of `main` line 97. -/
def domainListOf (domains : String) : List String :=
  domains.split (fun c => c = ',')

/-! ## Order, authorization and challenge data (`acme` package types) -/

/-- `acme.Identifier`: `{Type: "dns", Value: domain}`. -/
structure Identifier where
  idType : String
  Value : String
deriving DecidableEq

/-- `acme.Challenge`: the fields `main` reads. -/
structure Challenge where
  KeyAuthorization : String
  Status : String
  URL : String
deriving DecidableEq

/-- `acme.Authorization`: identifier, challenge map keyed by challenge type,
and status. -/
structure Authorization where
  identifier : Identifier
  ChallengeMap : List (String × Challenge)
  Status : String
deriving DecidableEq

/-- `acme.Order`: the fields `main` reads. -/
structure Order where
  URL : String
  Authorizations : List String
  Certificate : String
  Status : String
deriving DecidableEq

/-- `acme.ChallengeTypeDNS01`. -/
def ChallengeTypeDNS01 : String := "dns-01"

/-! ## Challenge-fulfilment worker (`main` lines 113-153) -/

/-- The TXT comparison loop of `main` lines 132-139: `resut` starts false and
is set on the first response equal to the expected value, then the loop
breaks. -/
def txtMatchLoop (expected : String) : List String → Bool
  | [] => false
  | res :: rest => if res = expected then true else txtMatchLoop expected rest

/-- Terminal failures of one worker goroutine: each corresponds to a
`log.Fatal` call in `main` lines 116-152.  The spec names the third one
`ChallengeUnproven`; in the source it is `log.Fatal("解析错误")`. -/
inductive WorkerFailure where
  | fetchAuthorizationError (msg : String)
  | challengeTypeMissing (domain : String)
  | challengeUnproven
  | updateChallengeError (domain : String) (msg : String)
deriving DecidableEq

/-- Environment of one worker: the authority's answers to
`FetchAuthorization` and `UpdateChallenge`, the DNS TXT values
(`acme.NewTxtChange`) per record name, and the
`acme.EncodeDNS01KeyAuthorization` transform (opaque to `main`). -/
structure WorkerEnv where
  fetchAuthorization : String → Except String Authorization
  txtRecords : String → List String
  encodeDNS01KeyAuthorization : String → String
  updateChallenge : Challenge → Except String Challenge

/-- Modelled from the spec: the server-side state transition behind a
successful `acme.Client.UpdateChallenge` (package `letsencrypt/acme`, part
of this repository but absent from `src/`).  Per spec §4.3 step 4 the call
notifies the authority and fails fatally if rejected, and per the §3
invariant an authorization whose challenge update has been accepted has
been verified, i.e. has reached the `"valid"` state. -/
def validatedAuthorization (auth : Authorization) : Authorization :=
  { auth with Status := "valid" }

/-- One challenge-fulfilment goroutine (`main` lines 116-152): fetch the
authorization, pick the DNS-01 challenge, compare the TXT values at
`_acme-challenge.<domain>` against the encoded key authorization, notify
the authority, and deliver the authorization (now validated, see
`validatedAuthorization`) whose identifier value is sent on the channel. -/
def worker (env : WorkerEnv) (authUrl : String) : Except WorkerFailure Authorization :=
  match env.fetchAuthorization authUrl with
  | Except.error e => Except.error (WorkerFailure.fetchAuthorizationError e)
  | Except.ok auth =>
    match auth.ChallengeMap.lookup ChallengeTypeDNS01 with
    | none => Except.error (WorkerFailure.challengeTypeMissing auth.identifier.Value)
    | some chal =>
      if txtMatchLoop (env.encodeDNS01KeyAuthorization chal.KeyAuthorization)
          (env.txtRecords ("_acme-challenge." ++ auth.identifier.Value)) then
        match env.updateChallenge chal with
        | Except.error e =>
          Except.error (WorkerFailure.updateChallengeError auth.identifier.Value e)
        | Except.ok _ => Except.ok (validatedAuthorization auth)
      else Except.error WorkerFailure.challengeUnproven

/-- Fan-out over the order's authorization URLs.  A `log.Fatal` in any
goroutine terminates the whole process, so the run survives exactly when
every worker succeeds; the interleaving order does not affect that. -/
def runWorkers (env : WorkerEnv) : List String → Except WorkerFailure (List Authorization)
  | [] => Except.ok []
  | u :: us =>
    match worker env u with
    | Except.error e => Except.error e
    | Except.ok a =>
      match runWorkers env us with
      | Except.error e => Except.error e
      | Except.ok rest => Except.ok (a :: rest)

/-- The receive loop of `main` lines 155-157: block for `n` channel
receives, one per requested domain; `none` means the coordinator is still
blocked (some signal never arrives). -/
def challengeBarrier : Nat → List String → Option (List String)
  | 0, signals => some signals
  | Nat.succ _, [] => none
  | Nat.succ n, _ :: rest => challengeBarrier n rest

/-- The coordinator's join: the finalization stage runs only once the
barrier has released. -/
def coordinatorJoin {α : Type} (n : Nat) (signals : List String) (finalizationStage : α) :
    Option α :=
  match challengeBarrier n signals with
  | none => none
  | some _ => some finalizationStage

/-- `main` lines 113-157 end to end: spawn one worker per authorization URL,
die if any worker dies, then block until one signal per requested domain
has been received; only then are the (validated) authorizations handed to
the finalization stage. -/
def orderValidationPhase (env : WorkerEnv) (order : Order) (domainList : List String) :
    Option (List Authorization) :=
  match runWorkers env order.Authorizations with
  | Except.error _ => none
  | Except.ok auths =>
    match challengeBarrier domainList.length (auths.map (fun a => a.identifier.Value)) with
    | none => none
    | some _ => some auths

/-! ## Finalization stage (`main` lines 159-225) -/

/-- `pem.EncodeToMemory(&pem.Block{Type: btype, Bytes: der})`, with the
base64 body abstracted as a whitespace-free payload string supplied by the
caller. -/
def pemEncodeBlock (btype : String) (body : String) : String :=
  "-----BEGIN " ++ btype ++ "-----\n" ++ body ++ "\n-----END " ++ btype ++ "-----\n"

/-- The relevant fields of Go `pkix.Name`. -/
structure PkixName where
  CommonName : String
deriving DecidableEq

/-- The fields of the `x509.CertificateRequest` template that `main` line
182 fills in. -/
structure CertificateRequestTemplate where
  SignatureAlgorithm : String
  PublicKeyAlgorithm : String
  PublicKey : Int × Int
  Subject : PkixName
  DNSNames : List String
deriving DecidableEq

/-- The CSR template of `main` lines 182-188: ECDSA-with-SHA256, the
certificate key's public point, common name `domainList[0]`, and
`DNSNames` the whole domain list.  (`domainList[0]` requires a non-empty
list; `main` line 71 guarantees it.) -/
def csrTemplate (certKey : ECPrivateKey) (domainList : List String)
    (h : domainList ≠ []) : CertificateRequestTemplate :=
  ⟨"ECDSAWithSHA256", "ECDSA", (certKey.X, certKey.Y),
   ⟨domainList.head h⟩, domainList⟩

/-- The loop of `main` lines 214-220: append, for each certificate in the
order returned, its PEM CERTIFICATE block trimmed of surrounding
whitespace (`strings.TrimSpace`). -/
def buildPemData (b64 : String → String) (certs : List String) : List String :=
  certs.foldl (fun acc c => acc ++ [(pemEncodeBlock "CERTIFICATE" (b64 c)).trim]) []

/-- The bytes written to the certificate file (`main` line 221):
`strings.Join(pemData, "\n")`. -/
def certFileBytes (b64 : String → String) (certs : List String) : String :=
  String.intercalate "\n" (buildPemData b64 certs)

/-- Externally visible steps of the finalization stage, in program order.
`keyFilePersisted` and `certFilePersisted` are recorded only when the
write succeeded; the two network calls are recorded when attempted. -/
inductive FinEvent where
  | certKeyGenerated
  | keyFilePersisted
  | csrCreated
  | finalizeOrderCalled
  | certificatesFetchCalled
  | certFilePersisted
deriving DecidableEq

/-- Environment of the finalization stage: outcomes of `ecdsa.GenerateKey`,
`x509.MarshalECPrivateKey`, the key-file write, CSR creation and parsing,
`client.FinalizeOrder`, `client.FetchCertificates` and the cert-file
write; `b64` is the PEM base64 body of a DER payload. -/
structure FinalizeEnv where
  genCertKey : Except String ECPrivateKey
  marshalECKey : ECPrivateKey → Except String String
  writeKeyFileError : String → Option String
  createCSRError : Option String
  parseCSRError : Option String
  finalizeOrderResult : Except String Order
  fetchCertificatesResult : String → Except String (List String)
  writeCertFileError : String → Option String
  b64 : String → String

/-- The finalization stage of `main` (lines 159-225) as its trace of
externally visible steps: generate the certificate key, marshal it, write
the key file (PEM `EC PRIVATE KEY`), build and parse the CSR, call
`FinalizeOrder`, call `FetchCertificates` on the order's certificate URL,
and write the certificate chain file.  Any failing step `log.Fatal`s,
cutting the trace short. -/
def finalizationTrace (env : FinalizeEnv) : List FinEvent :=
  match env.genCertKey with
  | Except.error _ => []
  | Except.ok certKey =>
    FinEvent.certKeyGenerated ::
    (match env.marshalECKey certKey with
     | Except.error _ => []
     | Except.ok der =>
       match env.writeKeyFileError (pemEncodeBlock "EC PRIVATE KEY" der) with
       | some _ => []
       | none =>
         FinEvent.keyFilePersisted ::
         (match env.createCSRError with
          | some _ => []
          | none =>
            match env.parseCSRError with
            | some _ => []
            | none =>
              FinEvent.csrCreated :: FinEvent.finalizeOrderCalled ::
              (match env.finalizeOrderResult with
               | Except.error _ => []
               | Except.ok order2 =>
                 FinEvent.certificatesFetchCalled ::
                 (match env.fetchCertificatesResult order2.Certificate with
                  | Except.error _ => []
                  | Except.ok certs =>
                    match env.writeCertFileError (certFileBytes env.b64 certs) with
                    | some _ => []
                    | none => [FinEvent.certFilePersisted]))))

/-! ## Helper lemmas -/

/-- The `break`-on-first-match loop succeeds exactly when the expected value
occurs among the TXT responses. -/
theorem txtMatchLoop_eq_true_iff (expected : String) :
    ∀ l : List String, txtMatchLoop expected l = true ↔ expected ∈ l := by
  intro l
  induction l with
  | nil => simp [txtMatchLoop]
  | cons res rest ih =>
    by_cases h : res = expected
    · simp [txtMatchLoop, h]
    · simp [txtMatchLoop, h, ih]
      exact fun hmem => (h hmem.symm).elim

/-- The receive loop releases exactly when at least `n` signals are
available, and it consumes exactly the first `n` of them. -/
theorem challengeBarrier_eq_some_iff :
    ∀ (n : Nat) (signals rest : List String),
      challengeBarrier n signals = some rest ↔
        n ≤ signals.length ∧ rest = signals.drop n := by
  intro n
  induction n with
  | zero => intro signals rest; simp [challengeBarrier, eq_comm]
  | succ n ih =>
    intro signals rest
    cases signals with
    | nil => simp [challengeBarrier]
    | cons s ss => simpa [challengeBarrier, Nat.succ_le_succ_iff] using ih ss rest

/-- A worker hands back only authorizations in the `"valid"` state. -/
theorem worker_ok_status (env : WorkerEnv) (authUrl : String) (a : Authorization)
    (h : worker env authUrl = Except.ok a) : a.Status = "valid" := by
  unfold worker at h
  cases hf : env.fetchAuthorization authUrl with
  | error e => simp only [hf] at h; exact Except.noConfusion h
  | ok auth =>
    simp only [hf] at h
    cases hc : auth.ChallengeMap.lookup ChallengeTypeDNS01 with
    | none => simp only [hc] at h; exact Except.noConfusion h
    | some chal =>
      simp only [hc] at h
      by_cases hm : txtMatchLoop (env.encodeDNS01KeyAuthorization chal.KeyAuthorization)
          (env.txtRecords ("_acme-challenge." ++ auth.identifier.Value)) = true
      · simp only [hm, if_true] at h
        cases hu : env.updateChallenge chal with
        | error e => simp only [hu] at h; exact Except.noConfusion h
        | ok chal2 =>
          simp only [hu, Except.ok.injEq] at h
          rw [← h]
          rfl
      · rw [if_neg hm] at h
        exact Except.noConfusion h

/-- Every authorization delivered by a surviving fan-out is `"valid"`, and
there is one per authorization URL. -/
theorem runWorkers_ok_status (env : WorkerEnv) :
    ∀ (urls : List String) (auths : List Authorization),
      runWorkers env urls = Except.ok auths →
        auths.length = urls.length ∧ ∀ a ∈ auths, a.Status = "valid" := by
  intro urls
  induction urls with
  | nil =>
    intro auths h
    simp [runWorkers] at h
    subst h
    simp
  | cons u us ih =>
    intro auths h
    unfold runWorkers at h
    cases hw : worker env u with
    | error e => simp only [hw] at h; exact Except.noConfusion h
    | ok a =>
      simp only [hw] at h
      cases hr : runWorkers env us with
      | error e => simp only [hr] at h; exact Except.noConfusion h
      | ok rest =>
        simp only [hr, Except.ok.injEq] at h
        obtain ⟨hlen, hall⟩ := ih rest hr
        subst h
        refine ⟨by simp [hlen], ?_⟩
        intro x hx
        rcases List.mem_cons.mp hx with hx | hx
        · subst hx; exact worker_ok_status env u x hw
        · exact hall x hx

/-! ## Claims -/

/-- Claim C1: for every non-empty domain list `D`, the CSR template built by the
finalization stage (`main` lines 182-188) has `DNSNames` exactly equal to
`D` (same elements, same order) and subject common name equal to the first
element of `D`. -/
theorem csr_names (certKey : ECPrivateKey) (D : List String) (h : D ≠ []) :
    (csrTemplate certKey D h).DNSNames = D ∧
      (csrTemplate certKey D h).Subject.CommonName = D.head h :=
  ⟨rfl, rfl⟩

/-- Witness for C1 at `D = ["example.test", "*.example.test"]`. -/
theorem csr_names_witness :
    (["example.test", "*.example.test"] : List String) ≠ [] ∧
      (csrTemplate ⟨p256Params, 4, 5, 6⟩ ["example.test", "*.example.test"]
          (by simp)).DNSNames = ["example.test", "*.example.test"] ∧
      (csrTemplate ⟨p256Params, 4, 5, 6⟩ ["example.test", "*.example.test"]
          (by simp)).Subject.CommonName = "example.test" := by
  refine ⟨by simp, ?_⟩
  exact csr_names ⟨p256Params, 4, 5, 6⟩ ["example.test", "*.example.test"] (by simp)

/-- Claim C2: under a fetched authorization carrying a DNS-01 challenge, the
worker passes the DNS step exactly when some TXT value at
`_acme-challenge.<domain>` equals `EncodeDNS01KeyAuthorization` of the
challenge's key authorization — in which case it proceeds to the
challenge-update call — and any other response set (empty, partial or
mismatched) makes it die with the `ChallengeUnproven` failure
(`log.Fatal` at `main` line 141), with no retry. -/
theorem worker_dns_gate (env : WorkerEnv) (authUrl : String)
    (auth : Authorization) (chal : Challenge)
    (hfetch : env.fetchAuthorization authUrl = Except.ok auth)
    (hchal : auth.ChallengeMap.lookup ChallengeTypeDNS01 = some chal) :
    (env.encodeDNS01KeyAuthorization chal.KeyAuthorization ∈
        env.txtRecords ("_acme-challenge." ++ auth.identifier.Value) →
      worker env authUrl =
        (match env.updateChallenge chal with
         | Except.error e =>
           Except.error (WorkerFailure.updateChallengeError auth.identifier.Value e)
         | Except.ok _ => Except.ok (validatedAuthorization auth))) ∧
    (env.encodeDNS01KeyAuthorization chal.KeyAuthorization ∉
        env.txtRecords ("_acme-challenge." ++ auth.identifier.Value) →
      worker env authUrl = Except.error WorkerFailure.challengeUnproven) := by
  constructor
  · intro hmem
    have hloop : txtMatchLoop (env.encodeDNS01KeyAuthorization chal.KeyAuthorization)
        (env.txtRecords ("_acme-challenge." ++ auth.identifier.Value)) = true :=
      (txtMatchLoop_eq_true_iff _ _).mpr hmem
    unfold worker
    simp only [hfetch, hchal, hloop, if_true]
  · intro hmem
    have hloop : txtMatchLoop (env.encodeDNS01KeyAuthorization chal.KeyAuthorization)
        (env.txtRecords ("_acme-challenge." ++ auth.identifier.Value)) = false := by
      cases hc : txtMatchLoop (env.encodeDNS01KeyAuthorization chal.KeyAuthorization)
          (env.txtRecords ("_acme-challenge." ++ auth.identifier.Value)) with
      | false => rfl
      | true => exact absurd ((txtMatchLoop_eq_true_iff _ _).mp hc) hmem
    unfold worker
    simp only [hfetch, hchal, hloop, Bool.false_eq_true, if_false]

/-- Concrete environment for the C2 witness: the expected encoded key
authorization appears among the returned TXT values (next to an unrelated
stale value), so the worker proceeds past the DNS step. -/
def c2Env : WorkerEnv :=
  ⟨fun _ => Except.ok ⟨⟨"dns", "nvtia.com"⟩,
      [("dns-01", ⟨"tok.acct", "pending", "https://chal/2"⟩)], "pending"⟩,
   fun _ => ["stale-value", "encoded-tok"],
   fun _ => "encoded-tok",
   fun c => Except.ok c⟩

/-- Witness for C2: with one matching TXT value the worker passes the DNS
step and completes. -/
theorem worker_dns_gate_witness :
    worker c2Env "https://authz/2" =
      Except.ok (validatedAuthorization ⟨⟨"dns", "nvtia.com"⟩,
        [("dns-01", ⟨"tok.acct", "pending", "https://chal/2"⟩)], "pending"⟩) := by
  have h := (worker_dns_gate c2Env "https://authz/2"
      ⟨⟨"dns", "nvtia.com"⟩, [("dns-01", ⟨"tok.acct", "pending", "https://chal/2"⟩)], "pending"⟩
      ⟨"tok.acct", "pending", "https://chal/2"⟩ rfl (by rfl)).1 (by decide)
  exact h

/-- Claim C3: the coordinator's receive loop blocks the finalization stage until
one completion signal per requested domain has arrived: with fewer signals
than requested domains the finalization value is never produced, it is
produced exactly when at least `n` signals arrive, and the loop consumes
exactly the first `n` signals. -/
theorem coordinator_waits_for_all {α : Type} (n : Nat) (signals : List String) (fin : α) :
    (signals.length < n → coordinatorJoin n signals fin = none) ∧
    (coordinatorJoin n signals fin = some fin ↔ n ≤ signals.length) ∧
    (∀ rest, challengeBarrier n signals = some rest → rest = signals.drop n) := by
  refine ⟨?_, ⟨?_, ?_⟩, ?_⟩
  · intro hlt
    unfold coordinatorJoin
    cases hb : challengeBarrier n signals with
    | none => rfl
    | some rest =>
      have hle := ((challengeBarrier_eq_some_iff n signals rest).mp hb).1
      omega
  · intro h
    unfold coordinatorJoin at h
    cases hb : challengeBarrier n signals with
    | none => rw [hb] at h; exact Option.noConfusion h
    | some rest => exact ((challengeBarrier_eq_some_iff n signals rest).mp hb).1
  · intro hle
    have hb : challengeBarrier n signals = some (signals.drop n) :=
      (challengeBarrier_eq_some_iff n signals (signals.drop n)).mpr ⟨hle, rfl⟩
    unfold coordinatorJoin
    rw [hb]
  · intro rest h
    exact ((challengeBarrier_eq_some_iff n signals rest).mp h).2

/-- Witness for C3: two requested domains; with one signal the coordinator
is still blocked, with two it releases having consumed both. -/
theorem coordinator_waits_for_all_witness :
    coordinatorJoin 2 ["nvtia.com"] true = none ∧
      coordinatorJoin 2 ["nvtia.com", "*.nvtia.com"] true = some true := by
  constructor
  · exact (coordinator_waits_for_all 2 ["nvtia.com"] true).1 (by decide)
  · exact (coordinator_waits_for_all 2 ["nvtia.com", "*.nvtia.com"] true).2.1.mpr (by decide)

/-- Claim C4: if the run reaches the finalization stage (the validation phase
produced `some auths`), then every authorization it validated — one per
authorization URL of the order — is in the `"valid"` state, so the CSR is
never submitted while some authorization is unverified.  The `"valid"`
transition on a successful challenge update is modelled from the spec in
`validatedAuthorization`. -/
theorem finalization_only_with_valid_auths (env : WorkerEnv) (order : Order)
    (domainList : List String) (auths : List Authorization)
    (h : orderValidationPhase env order domainList = some auths) :
    auths.length = order.Authorizations.length ∧ ∀ a ∈ auths, a.Status = "valid" := by
  unfold orderValidationPhase at h
  cases hr : runWorkers env order.Authorizations with
  | error e => rw [hr] at h; exact Option.noConfusion h
  | ok as =>
    simp only [hr] at h
    cases hb : challengeBarrier domainList.length (as.map (fun a => a.identifier.Value)) with
    | none => simp only [hb] at h; exact Option.noConfusion h
    | some rest =>
      simp only [hb] at h
      have has : as = auths := by simpa using h
      subst has
      exact runWorkers_ok_status env order.Authorizations as hr

/-- Concrete environment for the C4 witness: one authorization whose DNS-01
challenge matches the published TXT value. -/
def c4Env : WorkerEnv :=
  ⟨fun _ => Except.ok ⟨⟨"dns", "example.test"⟩,
      [("dns-01", ⟨"tok.keyauth", "pending", "https://chal/1"⟩)], "pending"⟩,
   fun _ => ["b64digest"],
   fun _ => "b64digest",
   fun c => Except.ok c⟩

/-- Witness for C4: the one-domain run reaches finalization and the
authorization it hands over is `"valid"`. -/
theorem finalization_only_with_valid_auths_witness :
    orderValidationPhase c4Env ⟨"https://order/1", ["https://authz/1"], "", "pending"⟩
        ["example.test"] =
      some [⟨⟨"dns", "example.test"⟩,
            [("dns-01", ⟨"tok.keyauth", "pending", "https://chal/1"⟩)], "valid"⟩] ∧
    ∀ a ∈ [(⟨⟨"dns", "example.test"⟩,
            [("dns-01", ⟨"tok.keyauth", "pending", "https://chal/1"⟩)], "valid"⟩ : Authorization)],
      a.Status = "valid" := by
  refine ⟨by rfl, ?_⟩
  exact (finalization_only_with_valid_auths c4Env
      ⟨"https://order/1", ["https://authz/1"], "", "pending"⟩ ["example.test"] _ (by rfl)).2

/-- Claim C5: any failure of `loadAccount` — stat, read, unmarshal or account
update — makes `main` fall through to `createAccount`'s result (no retry,
no abort); a successful load is used as is; and the bootstrap is fatal
exactly when the load failed and account creation itself also failed. -/
theorem account_fallback (env : LoadEnv) (createResult : Except String Account) :
    ((∃ e, loadAccount env = Except.error e) →
        accountBootstrap (loadAccount env) createResult = createResult) ∧
    (∀ a, loadAccount env = Except.ok a →
        accountBootstrap (loadAccount env) createResult = Except.ok a) ∧
    ((∃ m, accountBootstrap (loadAccount env) createResult = Except.error m) ↔
        ((∃ e, loadAccount env = Except.error e) ∧ ∃ e, createResult = Except.error e)) := by
  cases hl : loadAccount env with
  | error e =>
    refine ⟨fun _ => rfl, fun a ha => Except.noConfusion ha, ?_⟩
    cases createResult with
    | error m => simp [accountBootstrap]
    | ok acct => simp [accountBootstrap]
  | ok acct =>
    refine ⟨fun he => ?_, fun a ha => ?_, ?_⟩
    · obtain ⟨e, he⟩ := he; exact Except.noConfusion he
    · have : acct = a := by simpa using ha
      subst this
      rfl
    · simp [accountBootstrap]

/-- Witness for C5: a missing account file (a `stat` error) falls through to
the freshly created account. -/
theorem account_fallback_witness :
    loadAccount ⟨some "stat data/cache/account.json: no such file or directory",
        Except.ok none, fun _ => Except.error "unused"⟩ =
      Except.error "stat data/cache/account.json: no such file or directory" ∧
    accountBootstrap
        (loadAccount ⟨some "stat data/cache/account.json: no such file or directory",
            Except.ok none, fun _ => Except.error "unused"⟩)
        (Except.ok ⟨"https://acct/7", ⟨p256Params, some 1, some 2, some 3⟩⟩) =
      Except.ok ⟨"https://acct/7", ⟨p256Params, some 1, some 2, some 3⟩⟩ := by
  refine ⟨rfl, ?_⟩
  exact (account_fallback _ _).1 ⟨_, rfl⟩

/-- Claim C6: the JSON written by `createAccount` round-trips through the
`tmpAccountFile` decoding of `loadAccount` without loss: the decoded file
parses, keeps the URL, and the reconstructed key has the same private
scalar `D` and public point `(X, Y)` as the original; since the original
was generated on P-256 the curves also agree, so any signature scheme
determined by the key produces identical signatures for a fixed message. -/
theorem account_roundtrip (k : ECPrivateKey) (url : String) (hk : k.Curve = p256Params) :
    ∃ taf : TmpAccountFile,
      unmarshalTmpAccountFile (marshalAccountFile k url) = some taf ∧
      taf.Url = url ∧
      (keyFromAccountFile taf).D = some k.D ∧
      (keyFromAccountFile taf).X = some k.X ∧
      (keyFromAccountFile taf).Y = some k.Y ∧
      (keyFromAccountFile taf).Curve = k.Curve := by
  refine ⟨⟨url, ⟨some k.D, some k.X, some k.Y,
      some ⟨some k.Curve.P, some k.Curve.N, some k.Curve.B, some k.Curve.Gx,
            some k.Curve.Gy, k.Curve.BitSize, k.Curve.Name⟩⟩⟩, ?_, rfl, rfl, rfl, rfl, ?_⟩
  · rfl
  · rw [hk]; rfl

/-- Witness for C6 at a concrete P-256 key and URL. -/
theorem account_roundtrip_witness :
    ∃ taf : TmpAccountFile,
      unmarshalTmpAccountFile
          (marshalAccountFile ⟨p256Params, 4, 5, 6⟩ "https://acct/1") = some taf ∧
      taf.Url = "https://acct/1" ∧
      (keyFromAccountFile taf).D = some 6 ∧
      (keyFromAccountFile taf).X = some 4 ∧
      (keyFromAccountFile taf).Y = some 5 ∧
      (keyFromAccountFile taf).Curve = p256Params :=
  account_roundtrip ⟨p256Params, 4, 5, 6⟩ "https://acct/1" rfl

/-- The finalization stage has exactly six possible traces, each a prefix of
the full run, cut at the first failing step. -/
theorem finalizationTrace_cases (env : FinalizeEnv) :
    finalizationTrace env = [] ∨
    finalizationTrace env = [FinEvent.certKeyGenerated] ∨
    finalizationTrace env = [FinEvent.certKeyGenerated, FinEvent.keyFilePersisted] ∨
    finalizationTrace env =
      [FinEvent.certKeyGenerated, FinEvent.keyFilePersisted, FinEvent.csrCreated,
       FinEvent.finalizeOrderCalled] ∨
    finalizationTrace env =
      [FinEvent.certKeyGenerated, FinEvent.keyFilePersisted, FinEvent.csrCreated,
       FinEvent.finalizeOrderCalled, FinEvent.certificatesFetchCalled] ∨
    finalizationTrace env =
      [FinEvent.certKeyGenerated, FinEvent.keyFilePersisted, FinEvent.csrCreated,
       FinEvent.finalizeOrderCalled, FinEvent.certificatesFetchCalled,
       FinEvent.certFilePersisted] := by
  unfold finalizationTrace
  repeat' split
  all_goals simp

/-- Claim C7: in every run of the finalization stage, if the `FinalizeOrder`
network call — or the certificate fetch — occurs in the trace at all, then
the successful write of the PEM `EC PRIVATE KEY` file occurs strictly
before it; a crash after either network exchange cannot lose the
generated key. -/
theorem key_persisted_before_network (env : FinalizeEnv) :
    (FinEvent.finalizeOrderCalled ∈ finalizationTrace env →
      FinEvent.keyFilePersisted ∈ finalizationTrace env ∧
      (finalizationTrace env).indexOf FinEvent.keyFilePersisted <
        (finalizationTrace env).indexOf FinEvent.finalizeOrderCalled) ∧
    (FinEvent.certificatesFetchCalled ∈ finalizationTrace env →
      FinEvent.keyFilePersisted ∈ finalizationTrace env ∧
      (finalizationTrace env).indexOf FinEvent.keyFilePersisted <
        (finalizationTrace env).indexOf FinEvent.certificatesFetchCalled) := by
  rcases finalizationTrace_cases env with h | h | h | h | h | h <;> rw [h] <;> exact (by decide)

/-- Concrete all-successful environment for the C7 witness. -/
def c7Env : FinalizeEnv :=
  ⟨Except.ok ⟨p256Params, 4, 5, 6⟩, fun _ => Except.ok "derbytes", fun _ => none,
   none, none, Except.ok ⟨"https://order/1", [], "https://cert/1", "valid"⟩,
   fun _ => Except.ok ["leafraw"], fun _ => none, fun c => c⟩

/-- Witness for C7: in the all-successful run the key write precedes the
finalize call. -/
theorem key_persisted_before_network_witness :
    FinEvent.keyFilePersisted ∈ finalizationTrace c7Env ∧
      (finalizationTrace c7Env).indexOf FinEvent.keyFilePersisted <
        (finalizationTrace c7Env).indexOf FinEvent.finalizeOrderCalled :=
  (key_persisted_before_network c7Env).1 (by decide)

/-- Claim C8: the persisted certificate file is one document holding, in exactly
the order the authority returned the chain (leaf first), each
certificate's PEM CERTIFICATE block trimmed of surrounding whitespace,
joined by single newlines. -/
theorem cert_file_layout (b64 : String → String) (certs : List String) :
    buildPemData b64 certs =
      certs.map (fun c => (pemEncodeBlock "CERTIFICATE" (b64 c)).trim) ∧
    certFileBytes b64 certs =
      String.intercalate "\n"
        (certs.map (fun c => (pemEncodeBlock "CERTIFICATE" (b64 c)).trim)) := by
  have h : ∀ (l acc : List String),
      l.foldl (fun acc c => acc ++ [(pemEncodeBlock "CERTIFICATE" (b64 c)).trim]) acc =
        acc ++ l.map (fun c => (pemEncodeBlock "CERTIFICATE" (b64 c)).trim) := by
    intro l
    induction l with
    | nil => intro acc; simp
    | cons c cs ih => intro acc; simp [List.foldl_cons, ih]
  have hb : buildPemData b64 certs =
      certs.map (fun c => (pemEncodeBlock "CERTIFICATE" (b64 c)).trim) := by
    unfold buildPemData
    simpa using h certs []
  exact ⟨hb, by unfold certFileBytes; rw [hb]⟩

/-- Claim C9: `loadAccount` installs the P-256 curve on every key it
reconstructs: for any parseable account file, whatever curve parameters
the file stored, the loaded key's curve is exactly P-256. -/
theorem loadAccount_forces_p256 (j : Json) (taf : TmpAccountFile)
    (_h : unmarshalTmpAccountFile j = some taf) :
    (keyFromAccountFile taf).Curve = p256Params := rfl

/-- Witness for C9: an account file storing a bogus curve (`P = 7`, name
`P-384`) still parses, and the loaded key's curve is nonetheless P-256. -/
theorem loadAccount_forces_p256_witness :
    unmarshalTmpAccountFile (Json.obj
        [("url", Json.str "https://acct/9"),
         ("privateKey", Json.obj
           [("Curve", Json.obj [("P", Json.num 7), ("Name", Json.str "P-384")]),
            ("X", Json.num 11), ("Y", Json.num 12), ("D", Json.num 13)])]) =
      some ⟨"https://acct/9", ⟨some 13, some 11, some 12,
        some ⟨some 7, none, none, none, none, 0, "P-384"⟩⟩⟩ ∧
    (keyFromAccountFile ⟨"https://acct/9", ⟨some 13, some 11, some 12,
        some ⟨some 7, none, none, none, none, 0, "P-384"⟩⟩⟩).Curve = p256Params := by
  refine ⟨by rfl, ?_⟩
  exact loadAccount_forces_p256 (Json.obj
      [("url", Json.str "https://acct/9"),
       ("privateKey", Json.obj
         [("Curve", Json.obj [("P", Json.num 7), ("Name", Json.str "P-384")]),
          ("X", Json.num 11), ("Y", Json.num 12), ("D", Json.num 13)])]) _ (by rfl)

/-- Claim C10: `createAccount` attempts the account-file write only after key
generation and the `NewAccount` registration have both succeeded; if
either fails it returns an error with no write attempted, leaving
persisted state unchanged. -/
theorem createAccount_writes_only_after_registration (env : CreateEnv) :
    (CreateEvent.writeAccountFile ∈ (createAccount env).2 →
      ∃ k a, env.generateKeyResult = Except.ok k ∧ env.newAccountResult k = Except.ok a) ∧
    ((∃ e, env.generateKeyResult = Except.error e) →
      (∃ m, (createAccount env).1 = Except.error m) ∧
        CreateEvent.writeAccountFile ∉ (createAccount env).2) ∧
    (∀ k e, env.generateKeyResult = Except.ok k → env.newAccountResult k = Except.error e →
      (∃ m, (createAccount env).1 = Except.error m) ∧
        CreateEvent.writeAccountFile ∉ (createAccount env).2) := by
  cases hg : env.generateKeyResult with
  | error e =>
    refine ⟨?_, ?_, ?_⟩
    · intro hmem
      simp only [createAccount, hg] at hmem
      exact absurd hmem (by decide)
    · intro _
      simp only [createAccount, hg]
      exact ⟨⟨_, rfl⟩, by decide⟩
    · intro k e' hk
      exact Except.noConfusion hk
  | ok key =>
    cases hn : env.newAccountResult key with
    | error e =>
      refine ⟨?_, ?_, ?_⟩
      · intro hmem
        simp only [createAccount, hg, hn] at hmem
        exact absurd hmem (by decide)
      · intro he
        obtain ⟨e', he'⟩ := he
        exact Except.noConfusion he'
      · intro k' e' hk' hn'
        have hkk : key = k' := Except.ok.inj hk'
        subst hkk
        simp only [createAccount, hg, hn]
        exact ⟨⟨_, rfl⟩, by decide⟩
    | ok account =>
      refine ⟨fun _ => ⟨key, account, rfl, hn⟩, ?_, ?_⟩
      · intro he
        obtain ⟨e', he'⟩ := he
        exact Except.noConfusion he'
      · intro k' e' hk' hn'
        have hkk : key = k' := Except.ok.inj hk'
        subst hkk
        rw [hn] at hn'
        exact Except.noConfusion hn'

/-- Witness for C10: a failing key generation yields an error and a trace
with no write attempt. -/
theorem createAccount_writes_only_after_registration_witness :
    (∃ m, (createAccount ⟨Except.error "entropy exhausted",
        fun _ => Except.error "unused", fun _ => none⟩).1 = Except.error m) ∧
      CreateEvent.writeAccountFile ∉
        (createAccount ⟨Except.error "entropy exhausted",
            fun _ => Except.error "unused", fun _ => none⟩).2 :=
  (createAccount_writes_only_after_registration _).2.1 ⟨_, rfl⟩

end LetsEncrypt
